import Mathlib

/-!
# Verification of the `datapool` library

A shallow embedding of the Go package `datapool` (file `datapool.go`):
a pool of named storage cells ("buckets"), each holding one value and the
timestamp of its last write, with a freshness comparison on reads.

Modelling choices:
* Go `int64` timestamps become `Int`; Go `int` identifiers become `Int`
  (they can be negative, and the code guards against that).
* A Go `any` value is `Option V` for an arbitrary type `V`: `none` is Go's
  `nil`, the zero value a freshly created cell holds.
* The wall clock (`time.Now().UnixNano()`) becomes an explicit `now`
  argument to `put`.
* The per-cell `sync.RWMutex` has no sequential content; each `get`/`put`
  is one atomic step.  `DataPool.Bucket` takes no lock in the source, so
  its two phases (scan, append) are also exposed separately
  (`bucketScan`, `bucketAppend`) to express interleavings of concurrent
  calls.
-/

/-- The inner `bucket` struct of the Go source: a name (immutable after
creation), an arbitrary value (`none` = Go `nil`), and the timestamp of the
last write (`0` = never written). -/
structure bucket (V : Type) where
  name : String
  value : Option V
  timestamp : Int
deriving Repr, DecidableEq

/-- `DataPool` from the Go source: an ordered sequence of cells. -/
structure DataPool (V : Type) where
  buckets : List (bucket V)
deriving Repr, DecidableEq

/-- The `Bucket` handle struct of the Go source: a (pool, identifier) pair.
In the pure embedding the pool is threaded explicitly, so the handle keeps
only the identifier. -/
structure Bucket where
  id : Int
deriving Repr, DecidableEq

/-- `NewDataPool`: a fresh empty pool. -/
def NewDataPool (V : Type) : DataPool V := { buckets := [] }

/-- `DataPool.get` from the Go source:
out-of-range identifiers return `(nil, timestamp, false)`; otherwise the
cell's value, its timestamp, and whether that timestamp is strictly greater
than the supplied comparison timestamp. -/
def DataPool.get (p : DataPool V) (id : Int) (timestamp : Int) :
    Option V × Int × Bool :=
  if h : 0 ≤ id ∧ id.toNat < p.buckets.length then
    let b := p.buckets.get ⟨id.toNat, h.2⟩
    (b.value, b.timestamp, decide (b.timestamp > timestamp))
  else
    (none, timestamp, false)

/-- `DataPool.put` from the Go source: out-of-range identifiers return `0`
and leave the pool unchanged; otherwise the cell's value is overwritten,
its timestamp set to the current wall-clock reading `now`, and that
timestamp returned.  The updated pool is returned explicitly. -/
def DataPool.put (p : DataPool V) (id : Int) (value : Option V) (now : Int) :
    DataPool V × Int :=
  if h : 0 ≤ id ∧ id.toNat < p.buckets.length then
    let b := p.buckets.get ⟨id.toNat, h.2⟩
    ({ buckets := p.buckets.set id.toNat
        { b with value := value, timestamp := now } }, now)
  else
    (p, 0)

/-- The scan half of `DataPool.Bucket`: the `for i, b := range p.buckets`
loop looking for a cell with the given name, returning its index. -/
def bucketScan (p : DataPool V) (name : String) : Option Nat :=
  p.buckets.findIdx? (fun b => b.name == name)

/-- The append half of `DataPool.Bucket`: builds a cell with the given
name, zero timestamp and no value, appends it, and returns a handle whose
identifier is `len(p.buckets) - 1` after the append. -/
def bucketAppend (p : DataPool V) (name : String) : DataPool V × Bucket :=
  let b : bucket V := { name := name, value := none, timestamp := 0 }
  let buckets := p.buckets ++ [b]
  ({ buckets := buckets }, { id := Int.ofNat (buckets.length - 1) })

/-- `DataPool.Bucket` from the Go source: look the name up; if found,
return a handle to the existing cell, otherwise create and append a new
cell and return a handle to it.  The (possibly grown) pool is returned
explicitly.  The source takes no lock here. -/
def DataPool.Bucket (p : DataPool V) (name : String) : DataPool V × Bucket :=
  match p.buckets.findIdx? (fun b => b.name == name) with
  | some i => (p, { id := Int.ofNat i })
  | none => bucketAppend p name

/-- `Bucket.Get` from the Go source: delegates to the pool's `get` with the
handle's identifier. -/
def Bucket.Get (b : Bucket) (p : DataPool V) (timestamp : Int) :
    Option V × Int × Bool :=
  p.get b.id timestamp

/-- `Bucket.Put` from the Go source: delegates to the pool's `put` with the
handle's identifier. -/
def Bucket.Put (b : Bucket) (p : DataPool V) (value : Option V) (now : Int) :
    DataPool V × Int :=
  p.put b.id value now

/-- `DataPool.get` in explicit state-passing form: the Go method body
contains no assignment to the pool or to any cell, so the outgoing state is
the incoming one. -/
def DataPool.getS (p : DataPool V) (id : Int) (timestamp : Int) :
    DataPool V × (Option V × Int × Bool) :=
  (p, p.get id timestamp)

/-- `DataPool.Bucket` is its scan phase followed, on a miss, by its append
phase. -/
theorem bucket_eq_scan_append (p : DataPool V) (name : String) :
    p.Bucket name =
      match bucketScan p name with
      | some i => (p, { id := Int.ofNat i })
      | none => bucketAppend p name := rfl

/-- The interleaving of two concurrent `DataPool.Bucket` calls with the
same name in which both threads finish the scan phase before either runs
the append phase.  `DataPool.Bucket` takes no lock, so this schedule is
admissible.  Both scans read the same initial pool; each thread appends
only if its own scan missed. -/
def twoCallRace (p : DataPool V) (name : String) :
    DataPool V × Bucket × Bucket :=
  match bucketScan p name with
  | some i => (p, { id := Int.ofNat i }, { id := Int.ofNat i })
  | none =>
      let r1 := bucketAppend p name
      let r2 := bucketAppend r1.1 name
      (r2.1, r1.2, r2.2)

/-- The names of a pool's cells, in identifier order. -/
def poolNames (p : DataPool V) : List String :=
  p.buckets.map (fun b => b.name)

/-- One pool operation, for stating properties of arbitrary operation
sequences. -/
inductive PoolOp (V : Type) where
  | resolve (name : String)
  | putOp (id : Int) (v : Option V) (now : Int)
  | getOp (id : Int) (cmp : Int)

/-- The pool state after one operation. -/
def applyOp (p : DataPool V) : PoolOp V → DataPool V
  | .resolve n => (p.Bucket n).1
  | .putOp id v now => (p.put id v now).1
  | .getOp id cmp => (p.getS id cmp).1

/-- The pool state after a sequence of operations. -/
def applyOps (p : DataPool V) : List (PoolOp V) → DataPool V
  | [] => p
  | op :: ops => applyOps (applyOp p op) ops

/-- A concrete one-cell pool used to witness hypotheses. -/
def samplePool : DataPool Nat :=
  { buckets := [{ name := "x", value := some 10, timestamp := 5 }] }

/-- An out-of-range identifier fails the range check of `get` and `put`. -/
theorem not_in_range_of_out (p : DataPool V) (id : Int)
    (h : id < 0 ∨ (p.buckets.length : Int) ≤ id) :
    ¬(0 ≤ id ∧ id.toNat < p.buckets.length) := by
  rintro ⟨h0, h1⟩
  rcases h with h | h
  · omega
  · omega

/-- C1: for every pool and every in-range identifier, `get` returns the
cell's current value and current timestamp, and the freshness flag is true
iff the cell's timestamp is strictly greater than the comparison
timestamp. -/
theorem get_in_range_eval (p : DataPool V) (id cmp : Int)
    (h0 : 0 ≤ id) (h1 : id.toNat < p.buckets.length) :
    ∃ b, p.buckets[id.toNat]? = some b ∧
      p.get id cmp = (b.value, b.timestamp, decide (b.timestamp > cmp)) ∧
      ((p.get id cmp).2.2 = true ↔ b.timestamp > cmp) := by
  refine ⟨p.buckets.get ⟨id.toNat, h1⟩, ?_, ?_, ?_⟩
  · simp [List.getElem?_eq_some_iff]
    exact h1
  · unfold DataPool.get
    rw [dif_pos ⟨h0, h1⟩]
  · unfold DataPool.get
    rw [dif_pos ⟨h0, h1⟩]
    simp

/-- Witness for `get_in_range_eval` at a concrete pool and inputs. -/
theorem get_in_range_eval_witness :
    0 ≤ (0 : Int) ∧ (0 : Int).toNat < samplePool.buckets.length ∧
    ∃ b, samplePool.buckets[(0 : Int).toNat]? = some b ∧
      samplePool.get 0 3 = (b.value, b.timestamp, decide (b.timestamp > 3)) ∧
      ((samplePool.get 0 3).2.2 = true ↔ b.timestamp > 3) :=
  ⟨by decide, by decide, get_in_range_eval samplePool 0 3 (by decide) (by decide)⟩

/-- C6: for every out-of-range identifier (negative, or at least the cell
count), `get` returns `(none, cmp, false)` and `put` returns timestamp `0`
with the pool unchanged. -/
theorem out_of_range_get_put (p : DataPool V) (id cmp : Int)
    (v : Option V) (now : Int)
    (h : id < 0 ∨ (p.buckets.length : Int) ≤ id) :
    p.get id cmp = (none, cmp, false) ∧ p.put id v now = (p, 0) := by
  constructor
  · unfold DataPool.get
    rw [dif_neg (not_in_range_of_out p id h)]
  · unfold DataPool.put
    rw [dif_neg (not_in_range_of_out p id h)]

/-- Witness for `out_of_range_get_put` at a concrete pool and inputs. -/
theorem out_of_range_get_put_witness :
    ((-1 : Int) < 0 ∨ (samplePool.buckets.length : Int) ≤ -1) ∧
    samplePool.get (-1) 7 = (none, 7, false) ∧
    samplePool.put (-1) (some 3) 9 = (samplePool, 0) :=
  ⟨Or.inl (by decide), out_of_range_get_put samplePool (-1) 7 (some 3) 9 (Or.inl (by decide))⟩

/-- In-range `put` evaluated: the cell is overwritten in place and the
clock reading is returned. -/
theorem put_eq_of_in_range (p : DataPool V) (id : Int) (v : Option V)
    (now : Int) (h0 : 0 ≤ id) (h1 : id.toNat < p.buckets.length) :
    p.put id v now =
      ({ buckets := p.buckets.set id.toNat
          { p.buckets.get ⟨id.toNat, h1⟩ with value := v, timestamp := now } },
        now) := by
  unfold DataPool.put
  rw [dif_pos ⟨h0, h1⟩]

/-- In-range `get` evaluated: the cell's value, timestamp and the freshness
comparison. -/
theorem get_eq_of_in_range (p : DataPool V) (id cmp : Int)
    (h0 : 0 ≤ id) (h1 : id.toNat < p.buckets.length) :
    p.get id cmp =
      ((p.buckets.get ⟨id.toNat, h1⟩).value,
        (p.buckets.get ⟨id.toNat, h1⟩).timestamp,
        decide ((p.buckets.get ⟨id.toNat, h1⟩).timestamp > cmp)) := by
  unfold DataPool.get
  rw [dif_pos ⟨h0, h1⟩]

/-- When a name scan misses, the scan repeated after appending a cell with
that name finds it at the old length. -/
theorem findIdx?_name_append (l : List (bucket V)) (name : String)
    (h : l.findIdx? (fun b => b.name == name) = none) :
    (l ++ [({ name := name, value := none, timestamp := 0 } : bucket V)]).findIdx?
      (fun b => b.name == name) = some l.length := by
  rw [List.findIdx?_append, h]
  simp [List.findIdx?_cons]

/-- C7: resolving the same name twice in sequence yields handles with the
same identifier, and the second call leaves the cell count unchanged. -/
theorem bucket_idempotent (p : DataPool V) (name : String) :
    ((p.Bucket name).1.Bucket name).2.id = (p.Bucket name).2.id ∧
    ((p.Bucket name).1.Bucket name).1.buckets.length =
      (p.Bucket name).1.buckets.length := by
  cases h : p.buckets.findIdx? (fun b => b.name == name) with
  | some i =>
      unfold DataPool.Bucket
      rw [h]
      dsimp only
      rw [h]
      exact ⟨rfl, rfl⟩
  | none =>
      unfold DataPool.Bucket
      rw [h]
      dsimp only
      unfold bucketAppend
      dsimp only
      rw [findIdx?_name_append p.buckets name h]
      simp

/-- C2: an in-range `put` of `v` at clock reading `now` returns `now`, and
with no intervening write, `get (now - 1)` returns `(v, now, true)` while
`get (now + 1)` returns `(v, now, false)`. -/
theorem put_get_roundtrip (p : DataPool V) (id : Int) (v : Option V)
    (now : Int) (h0 : 0 ≤ id) (h1 : id.toNat < p.buckets.length) :
    (p.put id v now).2 = now ∧
    (p.put id v now).1.get id (now - 1) = (v, now, true) ∧
    (p.put id v now).1.get id (now + 1) = (v, now, false) := by
  rw [put_eq_of_in_range p id v now h0 h1]
  have h1' : id.toNat <
      (p.buckets.set id.toNat
        { p.buckets.get ⟨id.toNat, h1⟩ with
            value := v, timestamp := now }).length := by
    simpa using h1
  refine ⟨rfl, ?_, ?_⟩
  · rw [get_eq_of_in_range _ id (now - 1) h0 h1']
    simp [List.get_eq_getElem, List.getElem_set_self]
  · rw [get_eq_of_in_range _ id (now + 1) h0 h1']
    simp [List.get_eq_getElem, List.getElem_set_self]

/-- Witness for `put_get_roundtrip` at a concrete pool and inputs. -/
theorem put_get_roundtrip_witness :
    0 ≤ (0 : Int) ∧ (0 : Int).toNat < samplePool.buckets.length ∧
    ((samplePool.put 0 (some 7) 9).2 = 9 ∧
      (samplePool.put 0 (some 7) 9).1.get 0 (9 - 1) = (some 7, 9, true) ∧
      (samplePool.put 0 (some 7) 9).1.get 0 (9 + 1) = (some 7, 9, false)) :=
  ⟨by decide, by decide,
    put_get_roundtrip samplePool 0 (some 7) 9 (by decide) (by decide)⟩

/-- C5: two sequential in-range `put` calls, the second at a strictly later
clock reading, return strictly increasing timestamps, and any subsequent
`get` observes the later, larger timestamp. -/
theorem sequential_put_timestamps_increase (p : DataPool V) (id : Int)
    (v1 v2 : Option V) (t1 t2 cmp : Int) (h0 : 0 ≤ id)
    (h1 : id.toNat < p.buckets.length) (hclock : t1 < t2) :
    (p.put id v1 t1).2 < ((p.put id v1 t1).1.put id v2 t2).2 ∧
    ((((p.put id v1 t1).1.put id v2 t2).1.get id cmp).2.1 =
      ((p.put id v1 t1).1.put id v2 t2).2) := by
  rw [put_eq_of_in_range p id v1 t1 h0 h1]
  have h1' : id.toNat <
      (p.buckets.set id.toNat
        { p.buckets.get ⟨id.toNat, h1⟩ with
            value := v1, timestamp := t1 }).length := by
    simpa using h1
  rw [put_eq_of_in_range _ id v2 t2 h0 h1']
  have h1'' : id.toNat <
      ((p.buckets.set id.toNat
          { p.buckets.get ⟨id.toNat, h1⟩ with
              value := v1, timestamp := t1 }).set id.toNat
        { (p.buckets.set id.toNat
            { p.buckets.get ⟨id.toNat, h1⟩ with
                value := v1, timestamp := t1 }).get ⟨id.toNat, h1'⟩ with
            value := v2, timestamp := t2 }).length := by
    simpa using h1
  refine ⟨hclock, ?_⟩
  rw [get_eq_of_in_range _ id cmp h0 h1'']
  simp [List.get_eq_getElem, List.getElem_set_self]

/-- Witness for `sequential_put_timestamps_increase` at a concrete pool and
inputs. -/
theorem sequential_put_timestamps_increase_witness :
    0 ≤ (0 : Int) ∧ (0 : Int).toNat < samplePool.buckets.length ∧
    (3 : Int) < 4 ∧
    ((samplePool.put 0 (some 1) 3).2 <
        ((samplePool.put 0 (some 1) 3).1.put 0 (some 2) 4).2 ∧
      ((((samplePool.put 0 (some 1) 3).1.put 0 (some 2) 4).1.get 0 0).2.1 =
        ((samplePool.put 0 (some 1) 3).1.put 0 (some 2) 4).2)) :=
  ⟨by decide, by decide, by decide,
    sequential_put_timestamps_increase samplePool 0 (some 1) (some 2) 3 4 0
      (by decide) (by decide) (by decide)⟩

/-- The pool holding exactly the one never-written cell "x". -/
def freshPool : DataPool Nat := ((NewDataPool Nat).Bucket "x").1

/-- C4 fails as stated: a never-written cell has timestamp `0`, and against
the comparison timestamp `-1` the code's freshness comparison `0 > -1` is
true, so `get` reports the cell as fresh rather than not-fresh. -/
theorem empty_cell_negative_cmp_fresh :
    freshPool.get ((NewDataPool Nat).Bucket "x").2.id (-1) = (none, 0, true) ∧
    (freshPool.get ((NewDataPool Nat).Bucket "x").2.id (-1)).2.2 ≠ false := by
  refine ⟨by decide, by decide⟩

/-- C4 (amended): a never-written cell (value `none`, timestamp `0`) read
with any comparison timestamp `cmp ≥ 0` yields `(none, 0, false)`. -/
theorem empty_cell_get_not_fresh (p : DataPool V) (id cmp : Int)
    (h0 : 0 ≤ id) (h1 : id.toNat < p.buckets.length)
    (hv : (p.buckets.get ⟨id.toNat, h1⟩).value = none)
    (ht : (p.buckets.get ⟨id.toNat, h1⟩).timestamp = 0)
    (hcmp : 0 ≤ cmp) :
    p.get id cmp = (none, 0, false) := by
  rw [get_eq_of_in_range p id cmp h0 h1, hv, ht]
  simp only [Prod.mk.injEq, true_and]
  simp only [decide_eq_false_iff_not, not_lt, gt_iff_lt]
  omega

/-- Witness for `empty_cell_get_not_fresh` at the concrete fresh pool. -/
theorem empty_cell_get_not_fresh_witness :
    0 ≤ (0 : Int) ∧ (0 : Int).toNat < freshPool.buckets.length ∧
    (freshPool.buckets.get ⟨(0 : Int).toNat, by decide⟩).value = none ∧
    (freshPool.buckets.get ⟨(0 : Int).toNat, by decide⟩).timestamp = 0 ∧
    0 ≤ (0 : Int) ∧
    freshPool.get 0 0 = (none, 0, false) :=
  ⟨by decide, by decide, by decide, by decide, by decide,
    empty_cell_get_not_fresh freshPool 0 0 (by decide) (by decide) (by decide)
      (by decide) (by decide)⟩

/-- C3 at the failing schedule: two concurrent resolves of the new name
"same" on an empty pool, with both scans running before either append
(possible because `DataPool.Bucket` takes no lock), create two cells with
the same name: the cell count grows by two, the uniqueness of names is
violated, and the two callers receive handles with different
identifiers. -/
theorem bucket_race_duplicates :
    (twoCallRace (NewDataPool Nat) "same").1.buckets.length = 2 ∧
    poolNames (twoCallRace (NewDataPool Nat) "same").1 = ["same", "same"] ∧
    ¬(poolNames (twoCallRace (NewDataPool Nat) "same").1).Nodup ∧
    (twoCallRace (NewDataPool Nat) "same").2.1 ≠
      (twoCallRace (NewDataPool Nat) "same").2.2 := by
  refine ⟨by decide, by decide, by decide, by decide⟩

/-- A missed name scan means no cell carries that name. -/
theorem name_not_mem_of_scan_none (l : List (bucket V)) (name : String)
    (h : l.findIdx? (fun b => b.name == name) = none) :
    name ∉ l.map (fun b => b.name) := by
  rw [List.findIdx?_eq_none_iff] at h
  simp only [List.mem_map]
  rintro ⟨b, hb, rfl⟩
  have hfalse := h b hb
  simp at hfalse

/-- `put` never changes the list of names: out of range it is a no-op, in
range it rewrites a cell keeping its name. -/
theorem put_preserves_names (p : DataPool V) (id : Int) (v : Option V)
    (now : Int) : poolNames (p.put id v now).1 = poolNames p := by
  by_cases h : 0 ≤ id ∧ id.toNat < p.buckets.length
  · rw [put_eq_of_in_range p id v now h.1 h.2]
    unfold poolNames
    dsimp only
    rw [List.map_set]
    apply List.ext_getElem?
    intro n
    rw [List.getElem?_set]
    split
    · next heq =>
        subst heq
        rw [if_pos (by simpa using h.2)]
        rw [List.getElem?_map]
        simp [List.getElem?_eq_some_iff, h.2, List.get_eq_getElem]
    · rfl
  · unfold DataPool.put
    rw [dif_neg h]

/-- C8: every operation preserves the pool invariant: resolve only appends
at the end (so existing cells keep their positions and names), name
uniqueness is preserved, `put` keeps the cell count and every name, and
`get` leaves the state untouched. -/
theorem ops_preserve_invariant (p : DataPool V) (name : String) (id : Int)
    (v : Option V) (now cmp : Int) (hnodup : (poolNames p).Nodup) :
    (∃ tail, (p.Bucket name).1.buckets = p.buckets ++ tail) ∧
    (poolNames (p.Bucket name).1).Nodup ∧
    (p.put id v now).1.buckets.length = p.buckets.length ∧
    poolNames (p.put id v now).1 = poolNames p ∧
    (poolNames (p.put id v now).1).Nodup ∧
    (p.getS id cmp).1 = p := by
  have hput := put_preserves_names p id v now
  refine ⟨?_, ?_, ?_, hput, hput ▸ hnodup, rfl⟩
  · unfold DataPool.Bucket
    cases h : p.buckets.findIdx? (fun b => b.name == name) with
    | some i => exact ⟨[], by simp⟩
    | none =>
        exact ⟨[{ name := name, value := none, timestamp := 0 }], rfl⟩
  · unfold DataPool.Bucket
    cases h : p.buckets.findIdx? (fun b => b.name == name) with
    | some i => exact hnodup
    | none =>
        unfold bucketAppend poolNames
        dsimp only
        rw [List.map_append]
        rw [List.nodup_append]
        simp only [List.map_cons, List.map_nil]
        refine ⟨hnodup, List.nodup_singleton _, ?_⟩
        rw [List.disjoint_singleton]
        exact name_not_mem_of_scan_none p.buckets name h
  · by_cases h : 0 ≤ id ∧ id.toNat < p.buckets.length
    · rw [put_eq_of_in_range p id v now h.1 h.2]
      simp
    · unfold DataPool.put
      rw [dif_neg h]

/-- Witness for `ops_preserve_invariant` at a concrete pool and inputs. -/
theorem ops_preserve_invariant_witness :
    (poolNames samplePool).Nodup ∧
    ((∃ tail, (samplePool.Bucket "y").1.buckets = samplePool.buckets ++ tail) ∧
      (poolNames (samplePool.Bucket "y").1).Nodup ∧
      (samplePool.put 0 (some 4) 6).1.buckets.length =
        samplePool.buckets.length ∧
      poolNames (samplePool.put 0 (some 4) 6).1 = poolNames samplePool ∧
      (poolNames (samplePool.put 0 (some 4) 6).1).Nodup ∧
      (samplePool.getS 0 2).1 = samplePool) :=
  ⟨by decide, ops_preserve_invariant samplePool "y" 0 (some 4) 6 2 (by decide)⟩

/-- A successful name scan returns an index below the list length. -/
theorem scan_index_lt_length (l : List (bucket V)) (name : String) (i : Nat)
    (h : l.findIdx? (fun b => b.name == name) = some i) : i < l.length :=
  (List.findIdx?_eq_some_iff_findIdx_eq.mp h).1

/-- The handle returned by a resolve is in range for the resolved pool. -/
theorem bucket_id_in_range (p : DataPool V) (name : String) :
    0 ≤ (p.Bucket name).2.id ∧
    ((p.Bucket name).2.id).toNat < (p.Bucket name).1.buckets.length := by
  unfold DataPool.Bucket
  cases h : p.buckets.findIdx? (fun b => b.name == name) with
  | some i =>
      refine ⟨Int.ofNat_nonneg i, ?_⟩
      simpa using scan_index_lt_length p.buckets name i h
  | none =>
      unfold bucketAppend
      refine ⟨Int.ofNat_nonneg _, ?_⟩
      simp

/-- No single operation shrinks the pool. -/
theorem applyOp_length_mono (p : DataPool V) (op : PoolOp V) :
    p.buckets.length ≤ (applyOp p op).buckets.length := by
  cases op with
  | resolve n =>
      show p.buckets.length ≤ (p.Bucket n).1.buckets.length
      unfold DataPool.Bucket
      cases h : p.buckets.findIdx? (fun b => b.name == n) with
      | some i => exact Nat.le_refl _
      | none =>
          unfold bucketAppend
          simp
  | putOp id v now =>
      show p.buckets.length ≤ (p.put id v now).1.buckets.length
      unfold DataPool.put
      by_cases h : 0 ≤ id ∧ id.toNat < p.buckets.length
      · rw [dif_pos h]
        simp
      · rw [dif_neg h]
  | getOp id cmp =>
      show p.buckets.length ≤ (p.getS id cmp).1.buckets.length
      exact Nat.le_refl _

/-- No sequence of operations shrinks the pool. -/
theorem applyOps_length_mono (p : DataPool V) (ops : List (PoolOp V)) :
    p.buckets.length ≤ (applyOps p ops).buckets.length := by
  induction ops generalizing p with
  | nil => exact Nat.le_refl _
  | cons op ops ih =>
      exact Nat.le_trans (applyOp_length_mono p op) (ih (applyOp p op))

/-- C9: a handle returned by a resolve carries an identifier in range for
the pool that produced it, and after any further sequence of operations
(the pool never shrinks) both `get` and `put` through that handle take
their main branch, never the defensive out-of-range branch. -/
theorem handle_guard_unreachable (p : DataPool V) (name : String)
    (ops : List (PoolOp V)) (cmp : Int) (v : Option V) (now : Int) :
    0 ≤ (p.Bucket name).2.id ∧
    ((p.Bucket name).2.id).toNat <
      (applyOps (p.Bucket name).1 ops).buckets.length ∧
    ¬((p.Bucket name).2.id < 0 ∨
      ((applyOps (p.Bucket name).1 ops).buckets.length : Int) ≤
        (p.Bucket name).2.id) ∧
    ∃ b, (applyOps (p.Bucket name).1 ops).buckets.get
        ⟨((p.Bucket name).2.id).toNat,
          Nat.lt_of_lt_of_le (bucket_id_in_range p name).2
            (applyOps_length_mono (p.Bucket name).1 ops)⟩ = b ∧
      (applyOps (p.Bucket name).1 ops).get (p.Bucket name).2.id cmp =
        (b.value, b.timestamp, decide (b.timestamp > cmp)) ∧
      (applyOps (p.Bucket name).1 ops).put (p.Bucket name).2.id v now =
        ({ buckets := (applyOps (p.Bucket name).1 ops).buckets.set
            ((p.Bucket name).2.id).toNat
            { b with value := v, timestamp := now } }, now) := by
  obtain ⟨h0, hlt⟩ := bucket_id_in_range p name
  have h1 : ((p.Bucket name).2.id).toNat <
      (applyOps (p.Bucket name).1 ops).buckets.length :=
    Nat.lt_of_lt_of_le hlt (applyOps_length_mono (p.Bucket name).1 ops)
  refine ⟨h0, h1, ?_, ?_⟩
  · rintro (hneg | hbig)
    · omega
    · omega
  · refine ⟨_, rfl, ?_, ?_⟩
    · exact get_eq_of_in_range _ _ cmp h0 h1
    · exact put_eq_of_in_range _ _ v now h0 h1

/-- C10: an in-range `put` changes only the addressed cell, rewriting its
value and timestamp while keeping its name; the cell count and every other
cell are untouched, and `get` changes no state at all. -/
theorem put_frame (p : DataPool V) (id : Int) (v : Option V) (now cmp : Int)
    (h0 : 0 ≤ id) (h1 : id.toNat < p.buckets.length) :
    (p.put id v now).1.buckets.length = p.buckets.length ∧
    (∀ j, j ≠ id.toNat → (p.put id v now).1.buckets[j]? = p.buckets[j]?) ∧
    (∃ b, p.buckets[id.toNat]? = some b ∧
      (p.put id v now).1.buckets[id.toNat]? =
        some { b with value := v, timestamp := now }) ∧
    (p.getS id cmp).1 = p := by
  rw [put_eq_of_in_range p id v now h0 h1]
  refine ⟨by simp, ?_, ?_, rfl⟩
  · intro j hj
    exact List.getElem?_set_ne (fun hh => hj hh.symm)
  · refine ⟨p.buckets.get ⟨id.toNat, h1⟩, ?_, ?_⟩
    · simp [List.getElem?_eq_some_iff]
      exact h1
    · exact List.getElem?_set_self h1

/-- Witness for `put_frame` at a concrete pool and inputs. -/
theorem put_frame_witness :
    0 ≤ (0 : Int) ∧ (0 : Int).toNat < samplePool.buckets.length ∧
    ((samplePool.put 0 (some 8) 11).1.buckets.length =
        samplePool.buckets.length ∧
      (∀ j, j ≠ (0 : Int).toNat →
        (samplePool.put 0 (some 8) 11).1.buckets[j]? =
          samplePool.buckets[j]?) ∧
      (∃ b, samplePool.buckets[(0 : Int).toNat]? = some b ∧
        (samplePool.put 0 (some 8) 11).1.buckets[(0 : Int).toNat]? =
          some { b with value := some 8, timestamp := 11 }) ∧
      (samplePool.getS 0 1).1 = samplePool) :=
  ⟨by decide, by decide,
    put_frame samplePool 0 (some 8) 11 1 (by decide) (by decide)⟩
